import Mathlib

set_option autoImplicit false

/-!
Shallow embedding of the client-side caching / request-coordination layer of
the BudgetApp front-end: the TTL response cache (src/services/api-cache.ts),
the user-scoped cache (src/services/cache.ts), the in-flight request
deduplicator around cachedRequest (src/services/api.ts) and the
micro-batching scheduler (src/services/api-batcher.ts).

Time is an explicit Nat parameter standing for Date.now(); the JavaScript
Map is embedded as an insertion-ordered association list with Map.set /
Map.get / Map.delete semantics on string keys.
-/

/-- Values as they occur in the JavaScript runtime, as far as the cache layer
observes them: null, booleans, numbers and strings.  Numbers are embedded as
integers (the claims only involve integral values); compound values (arrays,
nested objects), which the cache layer never inspects beyond truthiness, are
not needed by any claim and are omitted. -/
inductive JsVal : Type where
  | jsNull : JsVal
  | jsBool : Bool → JsVal
  | jsNum : Int → JsVal
  | jsStr : String → JsVal
  deriving DecidableEq

/-- Truthiness of a JavaScript value, as tested by the bare
"if (cachedData)" check in cachedRequest: null, false, 0 and the empty
string are falsy. -/
def JsVal.truthy : JsVal → Bool
  | .jsNull => false
  | .jsBool b => b
  | .jsNum n => n != 0
  | .jsStr s => s != ""

/-- Lower-casing of one character as String.prototype.toLowerCase acts on
the ASCII range (the only characters HTTP method names contain). -/
def charToLower (c : Char) : Char :=
  if 65 ≤ c.toNat ∧ c.toNat ≤ 90 then Char.ofNat (c.toNat + 32) else c

/-- Embedding of String.prototype.toLowerCase, character by character. -/
def strToLower (s : String) : String :=
  String.mk (s.data.map charToLower)

/-- Serialization of a single value exactly as JSON.stringify renders it. -/
def jsonOfVal : JsVal → String
  | .jsNull => "null"
  | .jsBool true => "true"
  | .jsBool false => "false"
  | .jsNum n => toString n
  | .jsStr s => "\"" ++ s ++ "\""

/-- Plain parameter object, embedded as its fields in enumeration
(insertion) order, which is the order JSON.stringify serializes them in. -/
abbrev ParamsObj := List (String × JsVal)

/-- Rendering of JSON.stringify on a plain object: fields in enumeration
order, each as a quoted key, a colon and the serialized value, the whole
wrapped in braces. -/
def jsonOfObj (o : ParamsObj) : String :=
  "\x7b" ++ String.intercalate "," (o.map (fun kv => "\"" ++ kv.1 ++ "\":" ++ jsonOfVal kv.2)) ++ "\x7d"

/-- Lookup in a JavaScript Map with string keys (Map.get). -/
def mapGet {α : Type} : List (String × α) → String → Option α
  | [], _ => none
  | (k, v) :: rest, key => if k = key then some v else mapGet rest key

/-- Update in a JavaScript Map (Map.set): overwrite in place when the key is
present, append otherwise. -/
def mapSet {α : Type} : List (String × α) → String → α → List (String × α)
  | [], key, v => [(key, v)]
  | (k, w) :: rest, key, v =>
    if k = key then (k, v) :: rest else (k, w) :: mapSet rest key v

/-- Removal from a JavaScript Map (Map.delete). -/
def mapDelete {α : Type} : List (String × α) → String → List (String × α)
  | [], _ => []
  | (k, v) :: rest, key =>
    if k = key then mapDelete rest key else (k, v) :: mapDelete rest key

theorem mapGet_mapSet_self {α : Type} (m : List (String × α)) (k : String) (v : α) :
    mapGet (mapSet m k v) k = some v := by
  induction m with
  | nil => simp [mapGet, mapSet]
  | cons hd tl ih =>
    obtain ⟨k', v'⟩ := hd
    by_cases h : k' = k
    · simp [mapGet, mapSet, h]
    · simp [mapGet, mapSet, h, ih]

theorem mapGet_mapSet_ne {α : Type} (m : List (String × α)) (k k' : String) (v : α)
    (h : k' ≠ k) : mapGet (mapSet m k v) k' = mapGet m k' := by
  have h' : k ≠ k' := Ne.symm h
  induction m with
  | nil => simp [mapGet, mapSet, h']
  | cons hd tl ih =>
    obtain ⟨k'', v''⟩ := hd
    by_cases h2 : k'' = k
    · subst h2
      simp [mapGet, mapSet, h']
    · simp only [mapSet, if_neg h2, mapGet, ih]

theorem mapGet_mapDelete_self {α : Type} (m : List (String × α)) (k : String) :
    mapGet (mapDelete m k) k = none := by
  induction m with
  | nil => simp [mapGet, mapDelete]
  | cons hd tl ih =>
    obtain ⟨k', v'⟩ := hd
    by_cases h : k' = k
    · simpa [mapDelete, h] using ih
    · simpa [mapDelete, mapGet, h] using ih

theorem mapGet_mapDelete_ne {α : Type} (m : List (String × α)) (k k' : String)
    (h : k' ≠ k) : mapGet (mapDelete m k) k' = mapGet m k' := by
  induction m with
  | nil => simp [mapGet, mapDelete]
  | cons hd tl ih =>
    obtain ⟨k'', v''⟩ := hd
    by_cases h2 : k'' = k
    · subst h2
      simpa [mapDelete, mapGet, Ne.symm h] using ih
    · simp [mapDelete, mapGet, h2, ih]

theorem not_mem_keys_mapDelete {α : Type} (m : List (String × α)) (k : String) :
    k ∉ (mapDelete m k).map Prod.fst := by
  induction m with
  | nil => simp [mapDelete]
  | cons hd tl ih =>
    obtain ⟨k', v'⟩ := hd
    by_cases h : k' = k
    · simpa [mapDelete, h] using ih
    · simpa [mapDelete, h, Ne.symm h] using ih

/-- Embedding of the ApiCache singleton (src/services/api-cache.ts): a Map
from cache key to the stored data plus its write timestamp. -/
structure ApiCache : Type where
  cache : List (String × (JsVal × Nat))
  deriving DecidableEq

namespace ApiCache

/-- Constant CACHE_TTL = 5 * 60 * 1000 (five minutes in milliseconds). -/
def CACHE_TTL : Nat := 5 * 60 * 1000

/-- Method ApiCache.get: a missing entry yields null; an entry older than
CACHE_TTL is deleted (lazy expiration) and yields null; otherwise the stored
data is returned.  The possibly-updated store is returned alongside. -/
def get (c : ApiCache) (key : String) (now : Nat) : Option JsVal × ApiCache :=
  match mapGet c.cache key with
  | none => (none, c)
  | some (data, ts) =>
    if now - ts > CACHE_TTL then
      (none, ⟨mapDelete c.cache key⟩)
    else
      (some data, c)

/-- Method ApiCache.set: store the data with the current timestamp. -/
def set (c : ApiCache) (key : String) (data : JsVal) (now : Nat) : ApiCache :=
  ⟨mapSet c.cache key (data, now)⟩

/-- Method ApiCache.clear: drop every entry. -/
def clear (_c : ApiCache) : ApiCache := ⟨[]⟩

/-- Method ApiCache.generateKey: join the lower-cased method, the url and —
when params is present (truthy) — JSON.stringify of the params object,
with "::" as separator.  The params object is serialized in enumeration
order; no key normalization is performed. -/
def generateKey (method url : String) (params : Option ParamsObj) : String :=
  let keyParts := [strToLower method, url] ++
    (match params with
     | none => []
     | some p => [jsonOfObj p])
  String.intercalate "::" keyParts

end ApiCache

/-- Claim C1: cache-key construction is canonical — the key is insensitive to
the case of the method AND to the enumeration order of the params object.
The first half holds (the method is lower-cased), but generateKey serializes
params with JSON.stringify in enumeration order, so the keys built from
params with fields a,b versus b,a differ: the order-insensitivity half of
the claim is false on the code, as this concrete evaluation shows. -/
theorem buildKey_canonicalization_fails :
    ApiCache.generateKey "GET" "/x" (some [("a", JsVal.jsNum 1), ("b", JsVal.jsNum 2)]) =
      ApiCache.generateKey "get" "/x" (some [("a", JsVal.jsNum 1), ("b", JsVal.jsNum 2)]) ∧
    ApiCache.generateKey "GET" "/x" (some [("a", JsVal.jsNum 1), ("b", JsVal.jsNum 2)]) ≠
      ApiCache.generateKey "get" "/x" (some [("b", JsVal.jsNum 2), ("a", JsVal.jsNum 1)]) := by
  exact ⟨by decide, by decide⟩

/-- Embedding of the DataCache singleton (src/services/cache.ts): a Map from
namespaced key to data plus write timestamp, together with the currently
active user id (null when no user is active). -/
structure DataCache : Type where
  cache : List (String × (JsVal × Nat))
  currentUserId : Option String
  deriving DecidableEq

namespace DataCache

/-- Constant CACHE_DURATION = 5 * 60 * 1000 (five minutes in milliseconds). -/
def CACHE_DURATION : Nat := 5 * 60 * 1000

/-- Method DataCache.generateUserKey: with an active user the key is
prefixed "user_cache_" ++ userId ++ "_"; with no active user the raw key is
used (degraded mode). -/
def generateUserKey (s : DataCache) (key : String) : String :=
  match s.currentUserId with
  | none => key
  | some uid => "user_cache_" ++ uid ++ "_" ++ key

/-- Method DataCache.setUserId: when the given id differs from the active
one (or none was active), clear the whole underlying store, then record the
id as active; otherwise do nothing. -/
def setUserId (s : DataCache) (userId : String) : DataCache :=
  if s.currentUserId ≠ some userId then
    { cache := [], currentUserId := some userId }
  else s

/-- Method DataCache.set: store data under the namespaced key with the
current timestamp. -/
def set (s : DataCache) (key : String) (data : JsVal) (now : Nat) : DataCache :=
  { s with cache := mapSet s.cache (s.generateUserKey key) (data, now) }

/-- Method DataCache.get: a missing entry yields null; an entry older than
CACHE_DURATION is deleted (lazy expiration) and yields null; otherwise the
stored data is returned.  The possibly-updated store is returned alongside. -/
def get (s : DataCache) (key : String) (now : Nat) : Option JsVal × DataCache :=
  let userKey := s.generateUserKey key
  match mapGet s.cache userKey with
  | none => (none, s)
  | some (data, ts) =>
    if now - ts > CACHE_DURATION then
      (none, { s with cache := mapDelete s.cache userKey })
    else
      (some data, s)

/-- Method DataCache.clear: drop every entry, keeping the active user. -/
def clear (s : DataCache) : DataCache :=
  { s with cache := [] }

/-- Method DataCache.getAllKeys: the list of (namespaced) keys present. -/
def getAllKeys (s : DataCache) : List String :=
  s.cache.map Prod.fst

end DataCache

/-- Claim C2: user isolation on user switch.  If user A is active and a
value is stored via set (so that get returns it), then after setUserId B
with B different from A, get on the same logical key returns null — no
other clear operation is involved: setUserId itself clears the entire
underlying store before recording B as active. -/
theorem setUserId_isolates_users (s : DataCache) (A B k : String) (v : JsVal)
    (t t' : Nat) (hA : s.currentUserId = some A) (hAB : A ≠ B) :
    ((s.set k v t).get k t).1 = some v ∧
    (((s.set k v t).setUserId B).get k t').1 = none := by
  constructor
  · simp [DataCache.get, DataCache.set, DataCache.generateUserKey,
      mapGet_mapSet_self, DataCache.CACHE_DURATION]
  · have hne : (s.set k v t).currentUserId ≠ some B := by
      simp [DataCache.set, hA]
      intro h
      exact hAB h
    simp [DataCache.setUserId, if_pos hne, DataCache.get, mapGet]

/-- Witness for C2 at concrete inputs: user "A" active, value stored under
key "k", then switching to user "B" makes the lookup return null. -/
theorem setUserId_isolates_users_witness :
    ((DataCache.mk [] (some "A")).currentUserId = some "A" ∧ "A" ≠ "B") ∧
    (((DataCache.mk [] (some "A")).set "k" (JsVal.jsStr "x") 0).get "k" 0).1 =
      some (JsVal.jsStr "x") ∧
    ((((DataCache.mk [] (some "A")).set "k" (JsVal.jsStr "x") 0).setUserId "B").get "k" 7).1 =
      none :=
  ⟨⟨rfl, by decide⟩,
   setUserId_isolates_users (DataCache.mk [] (some "A")) "A" "B" "k"
     (JsVal.jsStr "x") 0 7 rfl (by decide)⟩

/-- Claim C5: TTL expiry with lazy removal in the DataCache.  Immediately
after set, get returns the value; after the clock advances by more than
CACHE_DURATION (five minutes), get returns null and as a side effect of
that read the entry is deleted, so getAllKeys on the state get returned no
longer contains the (namespaced) key the value was stored under. -/
theorem dataCache_ttl_lazy_expiry (s : DataCache) (k : String) (v : JsVal)
    (t d : Nat) (hd : DataCache.CACHE_DURATION < d) :
    ((s.set k v t).get k t).1 = some v ∧
    ((s.set k v t).get k (t + d)).1 = none ∧
    (s.set k v t).generateUserKey k ∉
      (((s.set k v t).get k (t + d)).2).getAllKeys := by
  have huk : (s.set k v t).generateUserKey k = s.generateUserKey k := by
    simp [DataCache.set, DataCache.generateUserKey]
  have hget : mapGet (s.set k v t).cache (s.generateUserKey k) = some (v, t) := by
    simp [DataCache.set, mapGet_mapSet_self]
  refine ⟨?_, ?_, ?_⟩
  · simp [DataCache.get, huk, hget]
  · simp [DataCache.get, huk, hget, hd]
  · simp only [DataCache.get, huk, hget, DataCache.getAllKeys]
    simpa [hd] using not_mem_keys_mapDelete ((s.set k v t).cache) (s.generateUserKey k)

/-- Witness for C5 at concrete inputs: key "k" stored at time 0, read back
at time 0, then read at time 300001 ms (just past the five-minute TTL). -/
theorem dataCache_ttl_lazy_expiry_witness :
    DataCache.CACHE_DURATION < 300001 ∧
    (((DataCache.mk [] none).set "k" (JsVal.jsNum 9) 0).get "k" 0).1 =
      some (JsVal.jsNum 9) ∧
    (((DataCache.mk [] none).set "k" (JsVal.jsNum 9) 0).get "k" (0 + 300001)).1 = none ∧
    ((DataCache.mk [] none).set "k" (JsVal.jsNum 9) 0).generateUserKey "k" ∉
      ((((DataCache.mk [] none).set "k" (JsVal.jsNum 9) 0).get "k" (0 + 300001)).2).getAllKeys :=
  ⟨by decide,
   dataCache_ttl_lazy_expiry (DataCache.mk [] none) "k" (JsVal.jsNum 9) 0 300001 (by decide)⟩

/-- Error shape the axios response interceptor sees: an HTTP status plus a
message; the interceptor re-rejects with the very same error object. -/
structure HttpError : Type where
  status : Nat
  message : String
  deriving DecidableEq

/-- Embedding of the response-error interceptor in src/services/api.ts: on
status 401 or 403 the whole ApiCache is cleared; in every case the same
error is propagated (Promise.reject(error)). -/
def onResponseError (c : ApiCache) (e : HttpError) : ApiCache × HttpError :=
  (if e.status == 401 || e.status == 403 then ApiCache.clear c else c, e)

/-- Embedding of the response-success interceptor in src/services/api.ts:
successful GET responses with status 200 are written into the ApiCache
under the generated key; the response data passes through unchanged. -/
def onResponseSuccess (c : ApiCache) (method url : String) (params : Option ParamsObj)
    (status : Nat) (data : JsVal) (now : Nat) : ApiCache × JsVal :=
  (if strToLower method == "get" && status == 200 then
     ApiCache.set c (ApiCache.generateKey method url params) data now
   else c, data)

/-- Options bag of cachedRequest (skipCache / forceRefresh; the timeout
field only parameterizes the network layer and is omitted). -/
structure RequestOptions : Type where
  skipCache : Bool
  forceRefresh : Bool
  deriving DecidableEq

/-- Global state of the module src/services/api.ts: the pendingRequests Map
(cache key to the promise in flight for it, embedded as a promise id), the
ApiCache store, a counter supplying fresh promise ids, and the number of
underlying network invocations made so far. -/
structure ApiState : Type where
  pending : List (String × Nat)
  store : ApiCache
  nextId : Nat
  networkCalls : Nat
  deriving DecidableEq

/-- Outcome of one cachedRequest invocation, which runs synchronously up to
the first await: the caller is handed an already-pending promise (dedup
hit), an immediately resolved cached value, or the promise of a freshly
issued network request. -/
inductive CallResult : Type where
  | sharedPending : Nat → CallResult
  | cacheHit : JsVal → CallResult
  | newRequest : Nat → CallResult
  deriving DecidableEq

/-- Tail of cachedRequest once both the dedup and the cache checks have
fallen through: issue the network request (one network invocation), store
the new promise in pendingRequests under the cache key, return it. -/
def ApiState.startRequest (s : ApiState) (key : String) : CallResult × ApiState :=
  (CallResult.newRequest s.nextId,
   { pending := mapSet s.pending key s.nextId
     store := s.store
     nextId := s.nextId + 1
     networkCalls := s.networkCalls + 1 })

/-- Embedding of cachedRequest (src/services/api.ts): build the cache key;
if a pending request exists under it, return that promise; otherwise, for a
GET without skipCache/forceRefresh, consult the ApiCache and return a
truthy cached value directly; otherwise issue a fresh request.  Everything
here happens synchronously in one event-loop tick. -/
def cachedRequest (s : ApiState) (method url : String) (params : Option ParamsObj)
    (opts : RequestOptions) (now : Nat) : CallResult × ApiState :=
  let cacheKey := ApiCache.generateKey method url params
  match mapGet s.pending cacheKey with
  | some id => (CallResult.sharedPending id, s)
  | none =>
    if strToLower method == "get" && !opts.skipCache && !opts.forceRefresh then
      match ApiCache.get s.store cacheKey now with
      | (some v, store2) =>
        if v.truthy then
          (CallResult.cacheHit v, { s with store := store2 })
        else
          ApiState.startRequest { s with store := store2 } cacheKey
      | (none, store2) => ApiState.startRequest { s with store := store2 } cacheKey
    else
      ApiState.startRequest s cacheKey

/-- Settlement outcome of the underlying network promise: a fulfilled
response (HTTP status and body) or a rejection carrying an error. -/
inductive Outcome : Type where
  | success : Nat → JsVal → Outcome
  | failure : HttpError → Outcome
  deriving DecidableEq

/-- Settlement of the request issued by cachedRequest for the given
(method, url, params): the matching response interceptor runs first
(caching a successful GET, clearing the cache on a 401/403 rejection), and
the finally block then removes the entry from pendingRequests — on
settlement, never before. -/
def settleRequest (s : ApiState) (method url : String) (params : Option ParamsObj)
    (outcome : Outcome) (now : Nat) : ApiState :=
  let cacheKey := ApiCache.generateKey method url params
  let store2 := match outcome with
    | Outcome.success status data =>
      (onResponseSuccess s.store method url params status data now).1
    | Outcome.failure e => (onResponseError s.store e).1
  { pending := mapDelete s.pending cacheKey
    store := store2
    nextId := s.nextId
    networkCalls := s.networkCalls }

theorem cachedRequest_newRequest_inv (s : ApiState) (m u : String)
    (p : Option ParamsObj) (o : RequestOptions) (n id : Nat) :
    (cachedRequest s m u p o n).1 = CallResult.newRequest id →
    id = s.nextId ∧
    (cachedRequest s m u p o n).2.pending =
      mapSet s.pending (ApiCache.generateKey m u p) s.nextId ∧
    (cachedRequest s m u p o n).2.networkCalls = s.networkCalls + 1 := by
  simp only [cachedRequest]
  split
  · intro h
    simp at h
  · split
    · split
      · split
        · intro h
          simp at h
        · intro h
          simp [ApiState.startRequest] at h
          simp [ApiState.startRequest, h]
      · intro h
        simp [ApiState.startRequest] at h
        simp [ApiState.startRequest, h]
    · intro h
      simp [ApiState.startRequest] at h
      simp [ApiState.startRequest, h]

theorem cachedRequest_hit_pending (s : ApiState) (m u : String)
    (p : Option ParamsObj) (o : RequestOptions) (n id : Nat)
    (h : mapGet s.pending (ApiCache.generateKey m u p) = some id) :
    cachedRequest s m u p o n = (CallResult.sharedPending id, s) := by
  simp [cachedRequest, h]

theorem cachedRequest_miss_newRequest (s : ApiState) (m u : String)
    (p : Option ParamsObj) (o : RequestOptions) (n : Nat)
    (hpend : mapGet s.pending (ApiCache.generateKey m u p) = none)
    (hstore : mapGet s.store.cache (ApiCache.generateKey m u p) = none) :
    (cachedRequest s m u p o n).1 = CallResult.newRequest s.nextId ∧
    (cachedRequest s m u p o n).2.networkCalls = s.networkCalls + 1 := by
  by_cases hc : (strToLower m == "get" && !o.skipCache && !o.forceRefresh) = true
  · simp [cachedRequest, hpend, hc, ApiCache.get, hstore, ApiState.startRequest]
  · simp [cachedRequest, hpend, hc, ApiState.startRequest]

/-- Claim C3: in-flight deduplication.  If a cachedRequest call issued a
fresh underlying request (promise id), then a second call with identical
(method, url, params) made before that request settles returns the very
same pending promise id, leaves the whole state untouched (in particular no
second network invocation happens), and across the two calls exactly one
underlying network invocation occurred.  Both callers hold the same promise
id, so on settlement they receive the identical resolved value. -/
theorem cachedRequest_dedups_inflight (s : ApiState) (m u : String)
    (p : Option ParamsObj) (o o' : RequestOptions) (n n' : Nat) (id : Nat)
    (h : (cachedRequest s m u p o n).1 = CallResult.newRequest id) :
    (cachedRequest (cachedRequest s m u p o n).2 m u p o' n').1 =
      CallResult.sharedPending id ∧
    (cachedRequest (cachedRequest s m u p o n).2 m u p o' n').2 =
      (cachedRequest s m u p o n).2 ∧
    (cachedRequest s m u p o n).2.networkCalls = s.networkCalls + 1 := by
  obtain ⟨hid, hpend, hnet⟩ := cachedRequest_newRequest_inv s m u p o n id h
  have hget : mapGet (cachedRequest s m u p o n).2.pending
      (ApiCache.generateKey m u p) = some id := by
    rw [hpend, hid]
    exact mapGet_mapSet_self _ _ _
  have heq := cachedRequest_hit_pending (cachedRequest s m u p o n).2 m u p o' n' id hget
  exact ⟨by rw [heq], by rw [heq], hnet⟩

/-- Witness for C3: a concrete GET for /transactions with a params object,
issued twice from the empty initial state before settlement. -/
theorem cachedRequest_dedups_inflight_witness :
    ((cachedRequest (ApiState.mk [] (ApiCache.mk []) 0 0) "get" "/transactions"
        (some [("monthYear", JsVal.jsStr "2024-01")]) (RequestOptions.mk false false) 0).1 =
      CallResult.newRequest 0) ∧
    ((cachedRequest (cachedRequest (ApiState.mk [] (ApiCache.mk []) 0 0) "get" "/transactions"
          (some [("monthYear", JsVal.jsStr "2024-01")]) (RequestOptions.mk false false) 0).2
        "get" "/transactions" (some [("monthYear", JsVal.jsStr "2024-01")])
        (RequestOptions.mk false false) 1).1 = CallResult.sharedPending 0 ∧
     (cachedRequest (cachedRequest (ApiState.mk [] (ApiCache.mk []) 0 0) "get" "/transactions"
          (some [("monthYear", JsVal.jsStr "2024-01")]) (RequestOptions.mk false false) 0).2
        "get" "/transactions" (some [("monthYear", JsVal.jsStr "2024-01")])
        (RequestOptions.mk false false) 1).2 =
       (cachedRequest (ApiState.mk [] (ApiCache.mk []) 0 0) "get" "/transactions"
          (some [("monthYear", JsVal.jsStr "2024-01")]) (RequestOptions.mk false false) 0).2 ∧
     (cachedRequest (ApiState.mk [] (ApiCache.mk []) 0 0) "get" "/transactions"
        (some [("monthYear", JsVal.jsStr "2024-01")]) (RequestOptions.mk false false) 0).2.networkCalls =
       (ApiState.mk [] (ApiCache.mk []) 0 0).networkCalls + 1) :=
  ⟨by decide,
   cachedRequest_dedups_inflight (ApiState.mk [] (ApiCache.mk []) 0 0) "get" "/transactions"
     (some [("monthYear", JsVal.jsStr "2024-01")]) (RequestOptions.mk false false)
     (RequestOptions.mk false false) 0 1 0 (by decide)⟩

/-- Claim C10 (implicit): deduplication also applies to mutations.  For a
non-GET method, the pendingRequests lookup still runs before anything else,
so a first call issues the network mutation and a second identical call
made before settlement shares that same pending promise: only one
underlying network invocation is performed for both callers. -/
theorem cachedRequest_dedups_mutations (s : ApiState) (m u : String)
    (p : Option ParamsObj) (o o' : RequestOptions) (n n' : Nat)
    (hng : strToLower m ≠ "get")
    (hpend : mapGet s.pending (ApiCache.generateKey m u p) = none) :
    (cachedRequest s m u p o n).1 = CallResult.newRequest s.nextId ∧
    (cachedRequest (cachedRequest s m u p o n).2 m u p o' n').1 =
      CallResult.sharedPending s.nextId ∧
    (cachedRequest (cachedRequest s m u p o n).2 m u p o' n').2.networkCalls =
      s.networkCalls + 1 := by
  have h1 : cachedRequest s m u p o n =
      ApiState.startRequest s (ApiCache.generateKey m u p) := by
    simp [cachedRequest, hpend, hng]
  have hget : mapGet (cachedRequest s m u p o n).2.pending
      (ApiCache.generateKey m u p) = some s.nextId := by
    rw [h1]
    simp [ApiState.startRequest, mapGet_mapSet_self]
  have heq := cachedRequest_hit_pending (cachedRequest s m u p o n).2 m u p o' n'
    s.nextId hget
  refine ⟨by rw [h1]; simp [ApiState.startRequest], by rw [heq], ?_⟩
  rw [heq]
  rw [h1]
  simp [ApiState.startRequest]

/-- Witness for C10: a concrete POST to /transactions issued twice from the
empty initial state before the first call settles. -/
theorem cachedRequest_dedups_mutations_witness :
    (strToLower "post" ≠ "get" ∧
     mapGet (ApiState.mk [] (ApiCache.mk []) 0 0).pending
       (ApiCache.generateKey "post" "/transactions" (some [("amount", JsVal.jsNum 100)])) = none) ∧
    ((cachedRequest (ApiState.mk [] (ApiCache.mk []) 0 0) "post" "/transactions"
        (some [("amount", JsVal.jsNum 100)]) (RequestOptions.mk true false) 0).1 =
      CallResult.newRequest 0 ∧
     (cachedRequest (cachedRequest (ApiState.mk [] (ApiCache.mk []) 0 0) "post" "/transactions"
          (some [("amount", JsVal.jsNum 100)]) (RequestOptions.mk true false) 0).2
        "post" "/transactions" (some [("amount", JsVal.jsNum 100)])
        (RequestOptions.mk true false) 1).1 = CallResult.sharedPending 0 ∧
     (cachedRequest (cachedRequest (ApiState.mk [] (ApiCache.mk []) 0 0) "post" "/transactions"
          (some [("amount", JsVal.jsNum 100)]) (RequestOptions.mk true false) 0).2
        "post" "/transactions" (some [("amount", JsVal.jsNum 100)])
        (RequestOptions.mk true false) 1).2.networkCalls =
       (ApiState.mk [] (ApiCache.mk []) 0 0).networkCalls + 1) :=
  ⟨⟨by decide, by decide⟩,
   cachedRequest_dedups_mutations (ApiState.mk [] (ApiCache.mk []) 0 0) "post"
     "/transactions" (some [("amount", JsVal.jsNum 100)]) (RequestOptions.mk true false)
     (RequestOptions.mk true false) 0 1 (by decide) (by decide)⟩

/-- Claim C9 (implicit): falsy cached values are treated as cache misses.
When a GET's cached value under the key is falsy (null never reaches this
point, so concretely 0, the empty string or false), the bare truthiness
test in cachedRequest rejects it even though the entry is present and
within its TTL, and a fresh underlying request is issued. -/
theorem falsy_cached_value_refetches (s : ApiState) (m u : String)
    (p : Option ParamsObj) (o : RequestOptions) (n ts : Nat) (v : JsVal)
    (hpend : mapGet s.pending (ApiCache.generateKey m u p) = none)
    (hm : strToLower m = "get")
    (hskip : o.skipCache = false)
    (hforce : o.forceRefresh = false)
    (hstore : mapGet s.store.cache (ApiCache.generateKey m u p) = some (v, ts))
    (hfresh : n - ts ≤ ApiCache.CACHE_TTL)
    (hfalsy : v.truthy = false) :
    (cachedRequest s m u p o n).1 = CallResult.newRequest s.nextId ∧
    (cachedRequest s m u p o n).2.networkCalls = s.networkCalls + 1 := by
  have hnotexp : ¬ (n - ts > ApiCache.CACHE_TTL) := Nat.not_lt.mpr hfresh
  constructor <;>
    simp [cachedRequest, hpend, hm, hskip, hforce, ApiCache.get, hstore, hnotexp,
      hfalsy, ApiState.startRequest]

/-- Witness for C9: a GET whose cached value is the falsy number 0, stored
at time 0 and queried at time 1 (well within the TTL), still triggers a
fresh request. -/
theorem falsy_cached_value_refetches_witness :
    (mapGet (ApiState.mk []
        (ApiCache.mk [(ApiCache.generateKey "get" "/lendings" none, (JsVal.jsNum 0, 0))]) 4 9).pending
        (ApiCache.generateKey "get" "/lendings" none) = none ∧
     strToLower "get" = "get" ∧
     mapGet (ApiState.mk []
        (ApiCache.mk [(ApiCache.generateKey "get" "/lendings" none, (JsVal.jsNum 0, 0))]) 4 9).store.cache
        (ApiCache.generateKey "get" "/lendings" none) = some (JsVal.jsNum 0, 0) ∧
     1 - 0 ≤ ApiCache.CACHE_TTL ∧
     JsVal.truthy (JsVal.jsNum 0) = false) ∧
    ((cachedRequest (ApiState.mk []
        (ApiCache.mk [(ApiCache.generateKey "get" "/lendings" none, (JsVal.jsNum 0, 0))]) 4 9)
        "get" "/lendings" none (RequestOptions.mk false false) 1).1 =
      CallResult.newRequest 4 ∧
     (cachedRequest (ApiState.mk []
        (ApiCache.mk [(ApiCache.generateKey "get" "/lendings" none, (JsVal.jsNum 0, 0))]) 4 9)
        "get" "/lendings" none (RequestOptions.mk false false) 1).2.networkCalls = 9 + 1) :=
  ⟨⟨by decide, by decide, by decide, by decide, by decide⟩,
   falsy_cached_value_refetches (ApiState.mk []
       (ApiCache.mk [(ApiCache.generateKey "get" "/lendings" none, (JsVal.jsNum 0, 0))]) 4 9)
     "get" "/lendings" none (RequestOptions.mk false false) 1 0 (JsVal.jsNum 0)
     (by decide) (by decide) (by decide) (by decide) (by decide) (by decide) (by decide)⟩

theorem cachedRequest_preserves_pending (s : ApiState) (m u : String)
    (p : Option ParamsObj) (o : RequestOptions) (n : Nat) (kp : String) (idp : Nat)
    (hk : mapGet s.pending kp = some idp) :
    mapGet ((cachedRequest s m u p o n).2).pending kp = some idp := by
  cases hpend : mapGet s.pending (ApiCache.generateKey m u p) with
  | some id =>
    rw [cachedRequest_hit_pending s m u p o n id hpend]
    exact hk
  | none =>
    have hne : kp ≠ ApiCache.generateKey m u p := by
      intro hc
      rw [hc, hpend] at hk
      exact Option.noConfusion hk
    simp only [cachedRequest, hpend]
    split
    all_goals try split
    all_goals try split
    all_goals simp_all [ApiState.startRequest,
      mapGet_mapSet_ne s.pending (ApiCache.generateKey m u p) kp s.nextId hne]

/-- Claim C7: dedup slot lifetime.  Three facts about an in-flight entry,
over an arbitrary state holding some pending entry (key kp, promise idp)
and an arbitrary cache state missing the settled key after a failure:
(a) settling the request for (method, url, params) — with any outcome,
resolution or rejection — removes exactly its pendingRequests entry;
(b) a cachedRequest call never removes an existing pending entry, so the
slot lives until settlement and not a tick less;
(c) after a failed settlement (whose rejection is never written to the
response cache) a new identical call issues a fresh underlying request
instead of reusing the settled promise. -/
theorem pending_slot_lifetime (s : ApiState) (m u : String) (p : Option ParamsObj)
    (outcome : Outcome) (e : HttpError) (o o' : RequestOptions)
    (n n1 n2 : Nat) (kp : String) (idp : Nat)
    (hk : mapGet s.pending kp = some idp)
    (hmiss : mapGet (settleRequest s m u p (Outcome.failure e) n).store.cache
      (ApiCache.generateKey m u p) = none) :
    mapGet (settleRequest s m u p outcome n).pending
      (ApiCache.generateKey m u p) = none ∧
    mapGet ((cachedRequest s m u p o n1).2).pending kp = some idp ∧
    (cachedRequest (settleRequest s m u p (Outcome.failure e) n) m u p o' n2).1 =
      CallResult.newRequest s.nextId := by
  refine ⟨?_, ?_, ?_⟩
  · simp [settleRequest, mapGet_mapDelete_self]
  · exact cachedRequest_preserves_pending s m u p o n1 kp idp hk
  · have hppost : mapGet (settleRequest s m u p (Outcome.failure e) n).pending
        (ApiCache.generateKey m u p) = none := by
      simp [settleRequest, mapGet_mapDelete_self]
    have := cachedRequest_miss_newRequest (settleRequest s m u p (Outcome.failure e) n)
      m u p o' n2 hppost hmiss
    have hnext : (settleRequest s m u p (Outcome.failure e) n).nextId = s.nextId := by
      simp [settleRequest]
    rw [hnext] at this
    exact this.1

/-- Witness for C7: state with one in-flight entry ("pk", promise 5) and an
empty response cache; a POST to /x fails with status 500, after which an
identical call issues a fresh request (promise 7, the state's next id). -/
theorem pending_slot_lifetime_witness :
    (mapGet (ApiState.mk [("pk", 5)] (ApiCache.mk []) 7 3).pending "pk" = some 5 ∧
     mapGet (settleRequest (ApiState.mk [("pk", 5)] (ApiCache.mk []) 7 3) "post" "/x" none
        (Outcome.failure (HttpError.mk 500 "boom")) 0).store.cache
       (ApiCache.generateKey "post" "/x" none) = none) ∧
    (mapGet (settleRequest (ApiState.mk [("pk", 5)] (ApiCache.mk []) 7 3) "post" "/x" none
        (Outcome.failure (HttpError.mk 500 "boom")) 0).pending
       (ApiCache.generateKey "post" "/x" none) = none ∧
     mapGet ((cachedRequest (ApiState.mk [("pk", 5)] (ApiCache.mk []) 7 3) "post" "/x" none
        (RequestOptions.mk true false) 1).2).pending "pk" = some 5 ∧
     (cachedRequest (settleRequest (ApiState.mk [("pk", 5)] (ApiCache.mk []) 7 3) "post" "/x"
        none (Outcome.failure (HttpError.mk 500 "boom")) 0) "post" "/x" none
        (RequestOptions.mk true false) 2).1 = CallResult.newRequest 7) :=
  ⟨⟨by decide, by decide⟩,
   pending_slot_lifetime (ApiState.mk [("pk", 5)] (ApiCache.mk []) 7 3) "post" "/x" none
     (Outcome.failure (HttpError.mk 500 "boom")) (HttpError.mk 500 "boom")
     (RequestOptions.mk true false) (RequestOptions.mk true false) 0 1 2 "pk" 5
     (by decide) (by decide)⟩

/-- Claim C8: authentication-failure safety.  When a response rejects with
status 401 or 403, the response-error interceptor clears the whole
ApiCache — afterwards every get on it misses — and propagates the very
same error object to the caller. -/
theorem auth_error_clears_cache (c : ApiCache) (e : HttpError) (k : String)
    (now : Nat) (h : e.status = 401 ∨ e.status = 403) :
    (ApiCache.get (onResponseError c e).1 k now).1 = none ∧
    (onResponseError c e).2 = e := by
  have hb : (e.status == 401 || e.status == 403) = true := by
    rcases h with h | h <;> simp [h]
  constructor
  · simp [onResponseError, hb, ApiCache.clear, ApiCache.get, mapGet]
  · simp [onResponseError]

/-- Witness for C8: a 401 rejection against a cache holding one entry; the
entry becomes unretrievable and the error comes back unchanged. -/
theorem auth_error_clears_cache_witness :
    ((HttpError.mk 401 "unauthorized").status = 401 ∨
     (HttpError.mk 401 "unauthorized").status = 403) ∧
    (ApiCache.get (onResponseError (ApiCache.mk [("k0", (JsVal.jsStr "secret", 0))])
        (HttpError.mk 401 "unauthorized")).1 "k0" 5).1 = none ∧
    (onResponseError (ApiCache.mk [("k0", (JsVal.jsStr "secret", 0))])
        (HttpError.mk 401 "unauthorized")).2 = HttpError.mk 401 "unauthorized" :=
  ⟨Or.inl rfl,
   auth_error_clears_cache (ApiCache.mk [("k0", (JsVal.jsStr "secret", 0))])
     (HttpError.mk 401 "unauthorized") "k0" 5 (Or.inl rfl)⟩

/-- Embedding of the RequestBatcher (src/services/api-batcher.ts): the
batchQueue Map from batch key to the waiters queued under it (waiters are
embedded as ids, in registration order), plus the single shared batchTimer
field, which when armed records the key and the request function (an id)
captured by the setTimeout closure. -/
structure RequestBatcher : Type where
  batchQueue : List (String × List Nat)
  batchTimer : Option (String × Nat)
  deriving DecidableEq

/-- Settlement of a batch's single requestFn invocation: a resolution value
or a rejection error, each embedded as an id. -/
inductive BatchOutcome : Type where
  | resolved : Nat → BatchOutcome
  | rejected : Nat → BatchOutcome
  deriving DecidableEq

/-- Observable effect of one processBatch run: the state afterwards, the
(waiter, outcome) deliveries in order, and the list of request functions
invoked (empty or a single id). -/
structure FlushResult : Type where
  state : RequestBatcher
  deliveries : List (Nat × BatchOutcome)
  invoked : List Nat
  deriving DecidableEq

namespace RequestBatcher

/-- Method RequestBatcher.batchRequest: ensure a queue exists for the key,
push the caller's waiter onto it, and arm the timer ONLY when no timer is
currently armed — the timer field is shared across all batch keys and
captures this call's key and requestFn. -/
def batchRequest (s : RequestBatcher) (key : String) (waiter fnId : Nat) :
    RequestBatcher :=
  let q := match mapGet s.batchQueue key with
    | none => mapSet s.batchQueue key []
    | some _ => s.batchQueue
  let q2 := match mapGet q key with
    | none => q
    | some ws => mapSet q key (ws ++ [waiter])
  { batchQueue := q2
    batchTimer := match s.batchTimer with
      | none => some (key, fnId)
      | some t => some t }

/-- Method RequestBatcher.processBatch: with no (or an empty) queue under
the key it returns at once; otherwise it deletes the key's queue, clears
the shared timer, invokes the captured requestFn exactly once and delivers
its single outcome to every queued waiter in registration order. -/
def processBatch (s : RequestBatcher) (key : String) (fnId : Nat)
    (fnOutcome : BatchOutcome) : FlushResult :=
  match mapGet s.batchQueue key with
  | none => FlushResult.mk s [] []
  | some ws =>
    if ws = [] then FlushResult.mk s [] []
    else
      FlushResult.mk
        (RequestBatcher.mk (mapDelete s.batchQueue key) none)
        (ws.map (fun w => (w, fnOutcome)))
        [fnId]

/-- Firing of the armed timer: runs processBatch on the key and requestFn
the setTimeout closure captured; with no armed timer nothing happens. -/
def fireTimer (s : RequestBatcher) (fnOutcome : BatchOutcome) : FlushResult :=
  match s.batchTimer with
  | none => FlushResult.mk s [] []
  | some (key, fnId) => processBatch s key fnId fnOutcome

/-- Sequence of batchRequest calls for one key and one request function,
one per waiter, in order — the shape of N components requesting the same
resource within one batch window. -/
def registerAll (s : RequestBatcher) (key : String) (fnId : Nat)
    (waiters : List Nat) : RequestBatcher :=
  waiters.foldl (fun st w => batchRequest st key w fnId) s

end RequestBatcher

theorem registerAll_queued (key : String) (f : Nat) (ws : List Nat) (acc : List Nat) :
    RequestBatcher.registerAll (RequestBatcher.mk [(key, acc)] (some (key, f))) key f ws =
      RequestBatcher.mk [(key, acc ++ ws)] (some (key, f)) := by
  induction ws generalizing acc with
  | nil => simp [RequestBatcher.registerAll]
  | cons w rest ih =>
    simp only [RequestBatcher.registerAll, List.foldl_cons]
    have hstep : RequestBatcher.batchRequest
        (RequestBatcher.mk [(key, acc)] (some (key, f))) key w f =
        RequestBatcher.mk [(key, acc ++ [w])] (some (key, f)) := by
      simp [RequestBatcher.batchRequest, mapGet, mapSet]
    rw [hstep]
    have hrest := ih (acc ++ [w])
    simp only [RequestBatcher.registerAll] at hrest
    rw [hrest]
    simp

theorem registerAll_from_empty (key : String) (f : Nat) (w : Nat) (rest : List Nat) :
    RequestBatcher.registerAll (RequestBatcher.mk [] none) key f (w :: rest) =
      RequestBatcher.mk [(key, w :: rest)] (some (key, f)) := by
  simp only [RequestBatcher.registerAll, List.foldl_cons]
  have hfirst : RequestBatcher.batchRequest (RequestBatcher.mk [] none) key w f =
      RequestBatcher.mk [(key, [w])] (some (key, f)) := by
    simp [RequestBatcher.batchRequest, mapGet, mapSet]
  rw [hfirst]
  have hrest := registerAll_queued key f rest [w]
  simp only [RequestBatcher.registerAll] at hrest
  rw [hrest]
  simp

/-- Claim C6: single-key batch coalescing.  Registering any nonempty list
of waiters under one batch key with one request function, starting from a
quiescent batcher, arms the timer once; when it fires, the request function
is invoked exactly once and every waiter receives the single outcome, in
registration order, leaving the batcher quiescent again.  Rejection is the
same path: a rejected outcome reaches every waiter identically. -/
theorem batcher_single_key_coalescing (key : String) (f : Nat) (ws : List Nat)
    (r : BatchOutcome) (h : ws ≠ []) :
    (RequestBatcher.fireTimer
        (RequestBatcher.registerAll (RequestBatcher.mk [] none) key f ws) r).invoked =
      [f] ∧
    (RequestBatcher.fireTimer
        (RequestBatcher.registerAll (RequestBatcher.mk [] none) key f ws) r).deliveries =
      ws.map (fun w => (w, r)) ∧
    (RequestBatcher.fireTimer
        (RequestBatcher.registerAll (RequestBatcher.mk [] none) key f ws) r).state =
      RequestBatcher.mk [] none := by
  cases ws with
  | nil => exact absurd rfl h
  | cons w rest =>
    rw [registerAll_from_empty key f w rest]
    refine ⟨?_, ?_, ?_⟩ <;>
      simp [RequestBatcher.fireTimer, RequestBatcher.processBatch, mapGet, mapDelete]

/-- Witness for C6: three waiters on the key "summary-2024-01" with request
function 0, resolved with value 7. -/
theorem batcher_single_key_coalescing_witness :
    ([1, 2, 3] : List Nat) ≠ [] ∧
    ((RequestBatcher.fireTimer
        (RequestBatcher.registerAll (RequestBatcher.mk [] none) "summary-2024-01" 0 [1, 2, 3])
        (BatchOutcome.resolved 7)).invoked = [0] ∧
     (RequestBatcher.fireTimer
        (RequestBatcher.registerAll (RequestBatcher.mk [] none) "summary-2024-01" 0 [1, 2, 3])
        (BatchOutcome.resolved 7)).deliveries =
       [(1, BatchOutcome.resolved 7), (2, BatchOutcome.resolved 7), (3, BatchOutcome.resolved 7)] ∧
     (RequestBatcher.fireTimer
        (RequestBatcher.registerAll (RequestBatcher.mk [] none) "summary-2024-01" 0 [1, 2, 3])
        (BatchOutcome.resolved 7)).state = RequestBatcher.mk [] none) :=
  ⟨by decide,
   by
    have h := batcher_single_key_coalescing "summary-2024-01" 0 [1, 2, 3]
      (BatchOutcome.resolved 7) (by decide)
    simpa using h⟩

/-- Claim C4: per-batch-key timers are independent — refuted by the code.
The batchTimer field is a single handle shared by every batch key: after a
first registration under key "A" arms the timer, a registration under key
"B" arrives while that window is open and arms nothing (the timer still
carries "A").  When the timer fires, only the "A" queue flushes and the
timer is cleared; "B" remains queued with no timer armed anywhere, so a
further firing event delivers nothing to it — "B" never gets its own timer
and is not eventually flushed, contradicting the claim. -/
theorem batcher_shared_timer_starves_other_key :
    (RequestBatcher.batchRequest
        (RequestBatcher.batchRequest (RequestBatcher.mk [] none) "A" 1 10)
        "B" 2 20).batchTimer = some ("A", 10) ∧
    (RequestBatcher.fireTimer
        (RequestBatcher.batchRequest
          (RequestBatcher.batchRequest (RequestBatcher.mk [] none) "A" 1 10)
          "B" 2 20) (BatchOutcome.resolved 0)).state =
      RequestBatcher.mk [("B", [2])] none ∧
    (RequestBatcher.fireTimer
        (RequestBatcher.fireTimer
          (RequestBatcher.batchRequest
            (RequestBatcher.batchRequest (RequestBatcher.mk [] none) "A" 1 10)
            "B" 2 20) (BatchOutcome.resolved 0)).state
        (BatchOutcome.resolved 0)).deliveries = [] := by
  decide
